import Mathlib

/-!
Verification of the `gridgame` engine (`src/gridgame/model.py`): a shallow
embedding of `TicTacToeWinValidator` and `GridGameModel` together with the
`Field` collaborator contract, and proofs of the specified properties.

Python integers are embedded as `Int`, symbols as `Int` (an opaque comparable
value), exceptions as `Except String`, and mutation as explicit state passing:
`place_symbol` returns the feedback together with the successor model.
-/

deriving instance DecidableEq for Except

namespace GridGame

/-- Symbols are opaque comparable values; embedded as integers. -/
abbrev Symbol := Int

/-- Player identifiers are (positive) integers. -/
abbrev PlayerId := Int

/-- A cell is a (row, column) coordinate pair of integers, 1-indexed. -/
structure Cell where
  row : Int
  col : Int
deriving DecidableEq, Repr

/-- Feedback codes returned by `GridGameModel.place_symbol`
(`gridgame/project_types.py`, used by `model.py`). -/
inductive Feedback where
  | VALID
  | GAME_OVER
  | INVALID_SYMBOL
  | OUT_OF_BOUNDS
  | OCCUPIED
deriving DecidableEq, Repr

/-- Modelled from the spec: `Field` lives in `gridgame/project_types.py`,
which is not under src/; spec section 4.1 gives its contract. An N by N grid
holding at most one symbol per cell; embedded as the grid size together with
the association list of occupied cells (the `occupied_cells` snapshot). -/
structure Field where
  grid_size : Nat
  cells : List (Cell × Symbol)
deriving DecidableEq, Repr

namespace Field

/-- Modelled from the spec: a fresh empty field of the given size. -/
def init (grid_size : Nat) : Field := { grid_size := grid_size, cells := [] }

/-- Modelled from the spec: `valid_coords` is the ordered sequence of valid
row/column indices, 1..grid_size. -/
def valid_coords (f : Field) : List Int :=
  (List.range f.grid_size).map (fun k => Int.ofNat k + 1)

/-- Modelled from the spec: `is_within_bounds(cell)` is true iff both
coordinates lie in [1, grid_size]. -/
def is_within_bounds (f : Field) (c : Cell) : Bool :=
  decide (1 ≤ c.row ∧ c.row ≤ (f.grid_size : Int) ∧ 1 ≤ c.col ∧ c.col ≤ (f.grid_size : Int))

/-- Modelled from the spec: `get_symbol_at(cell)` returns the current
occupant, or absent (`none`) if the cell is empty. Callers bounds-check
first, so the total lookup is faithful at every call site of the core. -/
def get_symbol_at (f : Field) (c : Cell) : Option Symbol :=
  (f.cells.find? (fun p => decide (p.1 = c))).map (fun p => p.2)

/-- Modelled from the spec: `place_symbol(symbol, cell)` marks the cell
occupied with the symbol; precondition (checked by the caller) is that the
cell is in bounds and unoccupied. -/
def place_symbol (f : Field) (s : Symbol) (c : Cell) : Field :=
  { f with cells := f.cells ++ [(c, s)] }

/-- Modelled from the spec: `are_all_equal_to_basis(basis, group)` is true
iff every cell in the group holds exactly the basis symbol. -/
def are_all_equal_to_basis (f : Field) (basis : Symbol) (group : List Cell) : Bool :=
  group.all (fun c => decide (f.get_symbol_at c = some basis))

/-- Modelled from the spec: `has_unoccupied_cell()` is true iff some valid
cell is unoccupied. -/
def has_unoccupied_cell (f : Field) : Bool :=
  f.valid_coords.any (fun r => f.valid_coords.any (fun c => (f.get_symbol_at ⟨r, c⟩).isNone))

/-- Modelled from the spec: `occupied_cells` is the snapshot of all occupied
cells with their symbols. -/
def occupied_cells (f : Field) : List (Cell × Symbol) := f.cells

end Field

/-- One committed placement: `GridGameMove` from `model.py`. -/
structure GridGameMove where
  player : PlayerId
  symbol : Symbol
  cell : Cell
deriving DecidableEq, Repr

/-- Chronological move history (`GridGameMoveHistory` in `model.py`). -/
abbrev GridGameMoveHistory := List GridGameMove

namespace TicTacToeWinValidator

/-- The candidate groups of `TicTacToeWinValidator._get_groups`: all rows,
then all columns, then the backslash diagonal, then the forward-slash
diagonal, each built over `field.valid_coords`. -/
def get_groups (field : Field) : List (List Cell) :=
  (field.valid_coords.map (fun row => field.valid_coords.map (fun k => Cell.mk row k)))
    ++ (field.valid_coords.map (fun col => field.valid_coords.map (fun k => Cell.mk k col)))
    ++ [field.valid_coords.map (fun k => Cell.mk k k),
        field.valid_coords.map (fun k => Cell.mk k ((field.grid_size : Int) - k + 1))]

/-- The message of the `IndexError` raised by `group[0]` on an empty group. -/
def indexErrorMsg : String := "IndexError: list index out of range"

/-- The message of the `assert False` in `get_winner` when a winning symbol
has no associated move in the history. -/
def assertErrorMsg : String :=
  "AssertionError: Winning symbol in cell group has no associated player"

/-- The inner loop of `get_winner`: scan the move history in reverse
chronological order for the first move whose cell lies in the group and whose
symbol equals the basis, returning its player. -/
def find_winning_player (move_history : GridGameMoveHistory) (group : List Cell)
    (basis : Symbol) : Option PlayerId :=
  (move_history.reverse.find?
    (fun mv => decide (mv.cell ∈ group) && decide (mv.symbol = basis))).map
    (fun mv => mv.player)

/-- The loop of `get_winner` over the remaining candidate groups. Reading
`group[0]` of an empty group raises `IndexError`; a fully-occupied group whose
symbol has no associated move raises `AssertionError`. -/
def get_winner_over (field : Field) (move_history : GridGameMoveHistory) :
    List (List Cell) → Except String (Option PlayerId)
  | [] => .ok none
  | group :: rest =>
    match group.head? with
    | none => .error indexErrorMsg
    | some c0 =>
      match field.get_symbol_at c0 with
      | none => get_winner_over field move_history rest
      | some basis =>
        if field.are_all_equal_to_basis basis group then
          match find_winning_player move_history group basis with
          | some p => .ok (some p)
          | none => .error assertErrorMsg
        else
          get_winner_over field move_history rest

/-- `TicTacToeWinValidator.get_winner`: the winner of the first candidate
group fully occupied by a single symbol, or `none` when no such group exists. -/
def get_winner (field : Field) (move_history : GridGameMoveHistory) :
    Except String (Option PlayerId) :=
  get_winner_over field move_history (get_groups field)

end TicTacToeWinValidator

/-- The state owned by `GridGameModel`: the field, the move history, the
player configuration (the symbol list, from which both player-symbol maps are
derived) and the current-player cursor. The win validator is fixed to
`TicTacToeWinValidator`, the only variant in the repository. -/
structure GridGameModel where
  field : Field
  move_history : GridGameMoveHistory
  player_symbols : List Symbol
  player_count : Int
  current_player : PlayerId
deriving DecidableEq, Repr

namespace GridGameModel

/-- Python's `enumerate(values, start)`: index-value pairs with indices
counting up from `start`. -/
def enumerate_from (start : Int) : List Symbol → List (PlayerId × Symbol)
  | [] => []
  | s :: rest => (start, s) :: enumerate_from (start + 1) rest

/-- The `_player_to_symbol` dictionary: players numbered from 1 in the order
their symbols were supplied (`enumerate(player_symbols, start=1)`). -/
def player_to_symbol (player_symbols : List Symbol) : List (PlayerId × Symbol) :=
  enumerate_from 1 player_symbols

/-- `GridGameModel.__init__`: rejects `player_count <= 1`, duplicate symbols,
and a symbol list whose length differs from `player_count`; on success starts
with a fresh empty field, empty history and `current_player = 1`. -/
def init (grid_size : Nat) (player_symbols : List Symbol) (player_count : Int) :
    Except String GridGameModel :=
  if player_count ≤ 1 then
    .error "Must have at least two players"
  else if player_symbols.dedup.length ≠ player_symbols.length then
    .error "Player symbols must be unique"
  else if (player_symbols.length : Int) ≠ player_count then
    .error "Player symbols must be exactly player_count"
  else
    .ok { field := Field.init grid_size
          move_history := []
          player_symbols := player_symbols
          player_count := player_count
          current_player := 1 }

/-- The `occupied_cells` property: delegates to the field. -/
def occupied_cells (m : GridGameModel) : List (Cell × Symbol) :=
  m.field.occupied_cells

/-- The `grid_size` property: delegates to the field. -/
def grid_size (m : GridGameModel) : Nat := m.field.grid_size

/-- The `winner` property: delegates to the win validator on every call. -/
def winner (m : GridGameModel) : Except String (Option PlayerId) :=
  TicTacToeWinValidator.get_winner m.field m.move_history

/-- The `is_game_over` property: a winner exists or the field has no
unoccupied cell. -/
def is_game_over (m : GridGameModel) : Except String Bool :=
  match m.winner with
  | .error e => .error e
  | .ok w => .ok (w.isSome || !m.field.has_unoccupied_cell)

/-- The `next_player` property: `current_player + 1`, wrapping to 1 after
`player_count`. -/
def next_player (m : GridGameModel) : PlayerId :=
  if m.current_player ≠ m.player_count then m.current_player + 1 else 1

/-- `get_symbol_choices(player)`: the single-element list of that player's
symbol, or a `ValueError` for a player outside the map. -/
def get_symbol_choices (m : GridGameModel) (player : PlayerId) :
    Except String (List Symbol) :=
  match (player_to_symbol m.player_symbols).lookup player with
  | none => .error "Invalid player"
  | some s => .ok [s]

/-- `place_symbol(symbol, cell)`: validates in order (game over, symbol,
bounds, occupancy) and on success places the symbol, appends the move and
advances the current player. Returns the feedback and the successor state. -/
def place_symbol (m : GridGameModel) (symbol : Symbol) (cell : Cell) :
    Except String (Feedback × GridGameModel) :=
  match m.is_game_over with
  | .error e => .error e
  | .ok true => .ok (Feedback.GAME_OVER, m)
  | .ok false =>
    match m.get_symbol_choices m.current_player with
    | .error e => .error e
    | .ok choices =>
      if symbol ∈ choices then
        if m.field.is_within_bounds cell then
          if (m.field.get_symbol_at cell).isSome then
            .ok (Feedback.OCCUPIED, m)
          else
            .ok (Feedback.VALID,
              { m with
                field := m.field.place_symbol symbol cell
                move_history := m.move_history ++ [⟨m.current_player, symbol, cell⟩]
                current_player := m.next_player })
        else
          .ok (Feedback.OUT_OF_BOUNDS, m)
      else
        .ok (Feedback.INVALID_SYMBOL, m)

end GridGameModel

/-- The states reachable through the public API: a successful construction,
followed by any sequence of `place_symbol` calls that do not raise. -/
inductive Reachable : GridGameModel → Prop where
  | init (grid_size : Nat) (player_symbols : List Symbol) (player_count : Int)
      (m : GridGameModel)
      (h : GridGameModel.init grid_size player_symbols player_count = .ok m) :
      Reachable m
  | step (m : GridGameModel) (symbol : Symbol) (cell : Cell)
      (fb : Feedback) (m' : GridGameModel)
      (hm : Reachable m) (h : m.place_symbol symbol cell = .ok (fb, m')) :
      Reachable m'

/-- The basis symbol under which a candidate group is a winning line, if any:
`get_symbol_at(group[0])` when it is present and every cell of the group holds
it (the guard of the winning branch in `get_winner`). -/
def winning_basis (f : Field) (g : List Cell) : Option Symbol :=
  match g.head? with
  | none => none
  | some c0 =>
    match f.get_symbol_at c0 with
    | none => none
    | some b => if f.are_all_equal_to_basis b g then some b else none

/-- The state invariant maintained by construction and `place_symbol`. -/
def Inv (m : GridGameModel) : Prop :=
  2 ≤ m.player_count ∧
  (m.player_symbols.length : Int) = m.player_count ∧
  1 ≤ m.current_player ∧ m.current_player ≤ m.player_count ∧
  m.move_history.length = m.field.cells.length ∧
  (∀ p ∈ m.field.cells, m.field.is_within_bounds p.1 = true)

/-- The model produced by `GridGameModel(3, ["X", "O"], 2, ...)` with the
symbols embedded as 0 and 1. -/
def freshModel : GridGameModel :=
  { field := { grid_size := 3, cells := [] }
    move_history := []
    player_symbols := [0, 1]
    player_count := 2
    current_player := 1 }

/-- The state after player 1 places symbol 0 at (1, 1) on `freshModel`. -/
def oneMoveModel : GridGameModel :=
  { field := { grid_size := 3, cells := [(⟨1, 1⟩, 0)] }
    move_history := [⟨1, 0, ⟨1, 1⟩⟩]
    player_symbols := [0, 1]
    player_count := 2
    current_player := 2 }

/-- A finished game on `freshModel`: 0 at (1,1), 1 at (2,1), 0 at (1,2),
1 at (2,2), 0 at (1,3); player 1 owns the fully occupied top row. -/
def wonModel : GridGameModel :=
  { field := { grid_size := 3,
               cells := [(⟨1, 1⟩, 0), (⟨2, 1⟩, 1), (⟨1, 2⟩, 0), (⟨2, 2⟩, 1), (⟨1, 3⟩, 0)] }
    move_history := [⟨1, 0, ⟨1, 1⟩⟩, ⟨2, 1, ⟨2, 1⟩⟩, ⟨1, 0, ⟨1, 2⟩⟩, ⟨2, 1, ⟨2, 2⟩⟩,
                     ⟨1, 0, ⟨1, 3⟩⟩]
    player_symbols := [0, 1]
    player_count := 2
    current_player := 2 }

/-! ## Case equations for `place_symbol` -/

theorem place_symbol_of_game_over (m : GridGameModel) (s : Symbol) (c : Cell)
    (h : m.is_game_over = .ok true) :
    m.place_symbol s c = .ok (Feedback.GAME_OVER, m) := by
  unfold GridGameModel.place_symbol
  rw [h]

theorem place_symbol_of_invalid_symbol (m : GridGameModel) (s : Symbol) (c : Cell)
    (cs : List Symbol)
    (hover : m.is_game_over = .ok false)
    (hch : m.get_symbol_choices m.current_player = .ok cs)
    (hs : s ∉ cs) :
    m.place_symbol s c = .ok (Feedback.INVALID_SYMBOL, m) := by
  unfold GridGameModel.place_symbol
  simp only [hover, hch, if_neg hs]

theorem place_symbol_of_out_of_bounds (m : GridGameModel) (s : Symbol) (c : Cell)
    (cs : List Symbol)
    (hover : m.is_game_over = .ok false)
    (hch : m.get_symbol_choices m.current_player = .ok cs)
    (hs : s ∈ cs)
    (hb : m.field.is_within_bounds c = false) :
    m.place_symbol s c = .ok (Feedback.OUT_OF_BOUNDS, m) := by
  unfold GridGameModel.place_symbol
  simp only [hover, hch, if_pos hs, hb, Bool.false_eq_true, if_false]

theorem place_symbol_of_occupied (m : GridGameModel) (s : Symbol) (c : Cell)
    (cs : List Symbol)
    (hover : m.is_game_over = .ok false)
    (hch : m.get_symbol_choices m.current_player = .ok cs)
    (hs : s ∈ cs)
    (hb : m.field.is_within_bounds c = true)
    (hocc : (m.field.get_symbol_at c).isSome = true) :
    m.place_symbol s c = .ok (Feedback.OCCUPIED, m) := by
  unfold GridGameModel.place_symbol
  simp only [hover, hch, if_pos hs, hb, hocc, if_true]

theorem place_symbol_of_valid (m : GridGameModel) (s : Symbol) (c : Cell)
    (cs : List Symbol)
    (hover : m.is_game_over = .ok false)
    (hch : m.get_symbol_choices m.current_player = .ok cs)
    (hs : s ∈ cs)
    (hb : m.field.is_within_bounds c = true)
    (hocc : m.field.get_symbol_at c = none) :
    m.place_symbol s c = .ok (Feedback.VALID,
      { m with
        field := m.field.place_symbol s c
        move_history := m.move_history ++ [⟨m.current_player, s, c⟩]
        current_player := m.next_player }) := by
  unfold GridGameModel.place_symbol
  simp only [hover, hch, if_pos hs, hb, hocc, Option.isSome_none, Bool.false_eq_true,
    if_false, if_true]

/-- C1: `place_symbol` checks its rejection conditions in order — game over,
then symbol, then bounds, then occupancy — and returns the first matching
feedback with the state unchanged; in particular every game-over state
returns GAME_OVER for all arguments, even an out-of-bounds cell. -/
theorem place_symbol_check_order (m : GridGameModel) (s : Symbol) (c : Cell) :
    (m.is_game_over = .ok true → m.place_symbol s c = .ok (Feedback.GAME_OVER, m))
    ∧ (∀ cs, m.is_game_over = .ok false →
        m.get_symbol_choices m.current_player = .ok cs → s ∉ cs →
        m.place_symbol s c = .ok (Feedback.INVALID_SYMBOL, m))
    ∧ (∀ cs, m.is_game_over = .ok false →
        m.get_symbol_choices m.current_player = .ok cs → s ∈ cs →
        m.field.is_within_bounds c = false →
        m.place_symbol s c = .ok (Feedback.OUT_OF_BOUNDS, m))
    ∧ (∀ cs, m.is_game_over = .ok false →
        m.get_symbol_choices m.current_player = .ok cs → s ∈ cs →
        m.field.is_within_bounds c = true →
        (m.field.get_symbol_at c).isSome = true →
        m.place_symbol s c = .ok (Feedback.OCCUPIED, m)) :=
  ⟨fun h => place_symbol_of_game_over m s c h,
   fun cs hover hch hs => place_symbol_of_invalid_symbol m s c cs hover hch hs,
   fun cs hover hch hs hb => place_symbol_of_out_of_bounds m s c cs hover hch hs hb,
   fun cs hover hch hs hb hocc => place_symbol_of_occupied m s c cs hover hch hs hb hocc⟩

/-- Witness for C1: each of the four rejection branches observed on a
concrete state — the finished game rejects an out-of-bounds cell with
GAME_OVER, a mid-game wrong symbol gives INVALID_SYMBOL, a fresh board
rejects cell (0, 1) with OUT_OF_BOUNDS, and the correct symbol on the
occupied cell (1, 1) gives OCCUPIED. -/
theorem place_symbol_check_order_witness :
    wonModel.place_symbol 0 ⟨0, 99⟩ = .ok (Feedback.GAME_OVER, wonModel)
    ∧ oneMoveModel.place_symbol 0 ⟨3, 3⟩ = .ok (Feedback.INVALID_SYMBOL, oneMoveModel)
    ∧ freshModel.place_symbol 0 ⟨0, 1⟩ = .ok (Feedback.OUT_OF_BOUNDS, freshModel)
    ∧ oneMoveModel.place_symbol 1 ⟨1, 1⟩ = .ok (Feedback.OCCUPIED, oneMoveModel) :=
  ⟨(place_symbol_check_order wonModel 0 ⟨0, 99⟩).1 (by decide),
   (place_symbol_check_order oneMoveModel 0 ⟨3, 3⟩).2.1 [1] (by decide) (by decide) (by decide),
   (place_symbol_check_order freshModel 0 ⟨0, 1⟩).2.2.1 [0] (by decide) (by decide) (by decide)
     (by decide),
   (place_symbol_check_order oneMoveModel 1 ⟨1, 1⟩).2.2.2 [1] (by decide) (by decide) (by decide)
     (by decide) (by decide)⟩

/-- C2: when none of the rejection conditions holds, `place_symbol` places
the symbol on the field, appends the move of the current player, advances
`current_player` to `next_player`, and returns VALID. -/
theorem place_symbol_valid_effects (m : GridGameModel) (s : Symbol) (c : Cell)
    (cs : List Symbol)
    (hover : m.is_game_over = .ok false)
    (hch : m.get_symbol_choices m.current_player = .ok cs)
    (hs : s ∈ cs)
    (hb : m.field.is_within_bounds c = true)
    (hocc : m.field.get_symbol_at c = none) :
    m.place_symbol s c = .ok (Feedback.VALID,
      { m with
        field := m.field.place_symbol s c
        move_history := m.move_history ++ [⟨m.current_player, s, c⟩]
        current_player := m.next_player }) :=
  place_symbol_of_valid m s c cs hover hch hs hb hocc

/-- Witness for C2: player 1 placing symbol 0 at (1, 1) on the fresh board
succeeds and produces exactly `oneMoveModel`. -/
theorem place_symbol_valid_effects_witness :
    freshModel.place_symbol 0 ⟨1, 1⟩ = .ok (Feedback.VALID, oneMoveModel) := by
  have h := place_symbol_valid_effects freshModel 0 ⟨1, 1⟩ [0] (by decide) (by decide)
    (by decide) (by decide) (by decide)
  rw [h]
  decide

/-- C4: terminal lockout — from any state with `is_game_over` true, every
`place_symbol` call returns GAME_OVER and leaves occupied cells, move
history and current player unchanged. -/
theorem terminal_lockout (m : GridGameModel) (s : Symbol) (c : Cell)
    (h : m.is_game_over = .ok true) :
    m.place_symbol s c = .ok (Feedback.GAME_OVER, m)
    ∧ ∀ fb m', m.place_symbol s c = .ok (fb, m') →
        m'.occupied_cells = m.occupied_cells ∧ m'.move_history = m.move_history ∧
        m'.current_player = m.current_player := by
  have heq := place_symbol_of_game_over m s c h
  refine ⟨heq, fun fb m' h' => ?_⟩
  rw [heq] at h'
  simp only [Except.ok.injEq, Prod.mk.injEq] at h'
  rw [← h'.2]
  exact ⟨rfl, rfl, rfl⟩

/-- Witness for C4: the finished game (player 1 won the top row) is game
over, and a further placement attempt returns GAME_OVER with the state
unchanged. -/
theorem terminal_lockout_witness :
    wonModel.place_symbol 1 ⟨3, 3⟩ = .ok (Feedback.GAME_OVER, wonModel) :=
  (terminal_lockout wonModel 1 ⟨3, 3⟩ (by decide)).1

/-! ## The game-over query -/

/-- C7: `is_game_over` is true exactly when a winner exists or no valid cell
is unoccupied; it is recomputed from the field and the move history on every
call (it depends on nothing else in the state), so repeated calls without an
intervening placement agree. -/
theorem is_game_over_characterization (m : GridGameModel) (w : Option PlayerId)
    (h : m.winner = .ok w) :
    m.is_game_over = .ok (w.isSome || !m.field.has_unoccupied_cell)
    ∧ (m.is_game_over = .ok true ↔ (w ≠ none ∨ m.field.has_unoccupied_cell = false))
    ∧ (∀ m' : GridGameModel, m'.field = m.field → m'.move_history = m.move_history →
        m'.winner = m.winner ∧ m'.is_game_over = m.is_game_over) := by
  refine ⟨?_, ?_, ?_⟩
  · unfold GridGameModel.is_game_over
    rw [h]
  · unfold GridGameModel.is_game_over
    rw [h]
    simp only [Except.ok.injEq, Bool.or_eq_true, Option.isSome_iff_ne_none,
      Bool.not_eq_true']
  · intro m' hf hh
    have hw : m'.winner = m.winner := by
      unfold GridGameModel.winner
      rw [hf, hh]
    refine ⟨hw, ?_⟩
    unfold GridGameModel.is_game_over
    rw [hw, hf]

/-- Witness for C7: the finished game has winner player 1 and is game over;
the fresh board has no winner, an unoccupied cell, and is not game over. -/
theorem is_game_over_characterization_witness :
    wonModel.is_game_over = .ok ((some 1 : Option PlayerId).isSome || !wonModel.field.has_unoccupied_cell)
    ∧ freshModel.is_game_over = .ok ((none : Option PlayerId).isSome || !freshModel.field.has_unoccupied_cell) :=
  ⟨(is_game_over_characterization wonModel (some 1) (by decide)).1,
   (is_game_over_characterization freshModel none (by decide)).1⟩

/-! ## The construction contract -/

theorem lookup_enumerate_from (syms : List Symbol) :
    ∀ (i : Int) (k : Nat), k < syms.length →
      (GridGameModel.enumerate_from i syms).lookup (i + k) = syms.get? k := by
  induction syms with
  | nil =>
    intro i k h
    simp at h
  | cons s rest ih =>
    intro i k h
    cases k with
    | zero =>
      simp [GridGameModel.enumerate_from, List.lookup]
    | succ k =>
      have hne : ((i + ((k : Nat) + 1 : Nat) : Int) == i) = false := by
        simp only [beq_eq_false_iff_ne, ne_eq]
        push_cast
        omega
      have harith : (i + ((k : Nat) + 1 : Nat) : Int) = (i + 1) + (k : Nat) := by
        push_cast
        ring
      simp only [GridGameModel.enumerate_from, List.lookup, hne, List.get?]
      rw [harith]
      exact ih (i + 1) k (by simpa using h)

theorem lookup_player_to_symbol (syms : List Symbol) (k : Nat) (h : k < syms.length) :
    (GridGameModel.player_to_symbol syms).lookup ((k : Int) + 1) = syms.get? k := by
  have h1 := lookup_enumerate_from syms 1 k h
  rw [show ((k : Int) + 1) = 1 + (k : Int) by ring]
  exact h1

theorem dedup_length_eq_iff (l : List Symbol) : l.dedup.length = l.length ↔ l.Nodup := by
  constructor
  · intro h
    have hsub : l.dedup.Sublist l := List.dedup_sublist l
    have heq : l.dedup = l := hsub.eq_of_length h
    rw [← heq]
    exact List.nodup_dedup l
  · intro h
    rw [List.dedup_eq_self.mpr h]

/-- C8: construction succeeds exactly when the player count is at least 2,
the symbols are pairwise distinct, and there are exactly `player_count` of
them; a successful construction starts with an empty field of the given
size, empty history, players 1..player_count mapped to the symbols in supply
order, and current player 1. -/
theorem init_contract (gs : Nat) (syms : List Symbol) (n : Int) :
    ((∃ m, GridGameModel.init gs syms n = .ok m) ↔
      (2 ≤ n ∧ syms.Nodup ∧ (syms.length : Int) = n))
    ∧ (∀ m, GridGameModel.init gs syms n = .ok m →
        m.field.grid_size = gs ∧ m.field.cells = [] ∧ m.move_history = [] ∧
        m.player_count = n ∧ m.current_player = 1 ∧ m.player_symbols = syms ∧
        ∀ k : Nat, k < syms.length →
          (GridGameModel.player_to_symbol m.player_symbols).lookup ((k : Int) + 1) =
            syms.get? k) := by
  constructor
  · constructor
    · rintro ⟨m, hm⟩
      unfold GridGameModel.init at hm
      by_cases h1 : n ≤ 1
      · rw [if_pos h1] at hm
        cases hm
      rw [if_neg h1] at hm
      by_cases h2 : syms.dedup.length ≠ syms.length
      · rw [if_pos h2] at hm
        cases hm
      rw [if_neg h2] at hm
      by_cases h3 : (syms.length : Int) ≠ n
      · rw [if_pos h3] at hm
        cases hm
      push_neg at h2 h3
      exact ⟨by omega, (dedup_length_eq_iff syms).mp h2, h3⟩
    · rintro ⟨h1, h2, h3⟩
      refine ⟨{ field := Field.init gs, move_history := [], player_symbols := syms,
                player_count := n, current_player := 1 }, ?_⟩
      unfold GridGameModel.init
      rw [if_neg (by omega), if_neg (by simp [List.dedup_eq_self.mpr h2]),
        if_neg (by simp [h3])]
  · intro m hm
    unfold GridGameModel.init at hm
    by_cases h1 : n ≤ 1
    · rw [if_pos h1] at hm
      cases hm
    rw [if_neg h1] at hm
    by_cases h2 : syms.dedup.length ≠ syms.length
    · rw [if_pos h2] at hm
      cases hm
    rw [if_neg h2] at hm
    by_cases h3 : (syms.length : Int) ≠ n
    · rw [if_pos h3] at hm
      cases hm
    rw [if_neg h3] at hm
    simp only [Except.ok.injEq] at hm
    rw [← hm]
    refine ⟨rfl, rfl, rfl, rfl, rfl, rfl, ?_⟩
    intro k hk
    exact lookup_player_to_symbol syms k hk

/-- Witness for C8: the standard two-player 3 by 3 construction succeeds
(yielding the fresh model), while duplicate symbols are rejected. -/
theorem init_contract_witness :
    (∃ m, GridGameModel.init 3 [0, 1] 2 = .ok m)
    ∧ ¬ (∃ m, GridGameModel.init 3 [0, 0] 2 = .ok m) := by
  constructor
  · exact (init_contract 3 [0, 1] 2).1.mpr ⟨by omega, by decide, by decide⟩
  · intro hex
    have h := (init_contract 3 [0, 0] 2).1.mp hex
    exact absurd h.2.1 (by decide)

/-! ## The state invariant -/

theorem inv_init (gs : Nat) (syms : List Symbol) (n : Int) (m : GridGameModel)
    (h : GridGameModel.init gs syms n = .ok m) : Inv m := by
  unfold GridGameModel.init at h
  by_cases h1 : n ≤ 1
  · rw [if_pos h1] at h
    cases h
  rw [if_neg h1] at h
  by_cases h2 : syms.dedup.length ≠ syms.length
  · rw [if_pos h2] at h
    cases h
  rw [if_neg h2] at h
  by_cases h3 : (syms.length : Int) ≠ n
  · rw [if_pos h3] at h
    cases h
  rw [if_neg h3] at h
  simp only [Except.ok.injEq] at h
  push_neg at h3
  rw [← h]
  unfold Inv
  refine ⟨?_, ?_, ?_, ?_, ?_, ?_⟩
  · show 2 ≤ n
    omega
  · exact h3
  · show (1 : Int) ≤ 1
    norm_num
  · show (1 : Int) ≤ n
    omega
  · rfl
  · intro p hp
    simp [Field.init] at hp

theorem inv_step (m : GridGameModel) (s : Symbol) (c : Cell) (fb : Feedback)
    (m' : GridGameModel) (hInv : Inv m)
    (h : m.place_symbol s c = .ok (fb, m')) : Inv m' := by
  unfold GridGameModel.place_symbol at h
  cases hover : m.is_game_over with
  | error e =>
    rw [hover] at h
    simp at h
  | ok b =>
    cases b with
    | true =>
      simp only [hover, Except.ok.injEq, Prod.mk.injEq] at h
      obtain ⟨hfb, hm⟩ := h
      subst hm
      exact hInv
    | false =>
      cases hch : m.get_symbol_choices m.current_player with
      | error e =>
        simp only [hover, hch] at h
        simp at h
      | ok cs =>
        simp only [hover, hch] at h
        by_cases hs : s ∈ cs
        · rw [if_pos hs] at h
          split at h
          · rename_i hb
            split at h
            · simp only [Except.ok.injEq, Prod.mk.injEq] at h
              obtain ⟨hfb, hm⟩ := h
              subst hm
              exact hInv
            · simp only [Except.ok.injEq, Prod.mk.injEq] at h
              obtain ⟨hfb, hm⟩ := h
              subst hm
              obtain ⟨hn, hlen, hc1, hc2, hhist, hbnd⟩ := hInv
              have h1 : 1 ≤ m.next_player := by
                unfold GridGameModel.next_player
                by_cases hcur : m.current_player ≠ m.player_count
                · rw [if_pos hcur]
                  linarith
                · rw [if_neg hcur]
              have h2 : m.next_player ≤ m.player_count := by
                unfold GridGameModel.next_player
                by_cases hcur : m.current_player ≠ m.player_count
                · rw [if_pos hcur]
                  have hlt : m.current_player < m.player_count := lt_of_le_of_ne hc2 hcur
                  exact Int.add_one_le_iff.mpr hlt
                · rw [if_neg hcur]
                  linarith
              have h3 : (m.move_history ++ [GridGameMove.mk m.current_player s c]).length =
                  (m.field.place_symbol s c).cells.length := by
                simp [Field.place_symbol, hhist]
              have h4 : ∀ p ∈ (m.field.place_symbol s c).cells,
                  (m.field.place_symbol s c).is_within_bounds p.1 = true := by
                intro p hp
                simp only [Field.place_symbol, List.mem_append, List.mem_singleton] at hp
                rcases hp with hp | hp
                · exact hbnd p hp
                · rw [hp]
                  exact hb
              exact ⟨hn, hlen, h1, h2, h3, h4⟩
          · simp only [Except.ok.injEq, Prod.mk.injEq] at h
            obtain ⟨hfb, hm⟩ := h
            subst hm
            exact hInv
        · rw [if_neg hs] at h
          simp only [Except.ok.injEq, Prod.mk.injEq] at h
          obtain ⟨hfb, hm⟩ := h
          subst hm
          exact hInv

theorem reachable_inv (m : GridGameModel) (h : Reachable m) : Inv m := by
  induction h with
  | init gs syms n m h0 => exact inv_init gs syms n m h0
  | step m s c fb m' hm h0 ih => exact inv_step m s c fb m' ih h0

/-- C9: every reachable state keeps the current player in [1, player_count]
and the move-history length equal to the number of occupied cells. -/
theorem reachable_invariants (m : GridGameModel) (h : Reachable m) :
    1 ≤ m.current_player ∧ m.current_player ≤ m.player_count ∧
    m.move_history.length = m.occupied_cells.length := by
  have hInv := reachable_inv m h
  exact ⟨hInv.2.2.1, hInv.2.2.2.1, hInv.2.2.2.2.1⟩

/-- Witness for C9: the invariants hold in the state reached by constructing
the 3 by 3 game and playing symbol 0 at (1, 1). -/
theorem reachable_invariants_witness :
    1 ≤ oneMoveModel.current_player ∧
    oneMoveModel.current_player ≤ oneMoveModel.player_count ∧
    oneMoveModel.move_history.length = oneMoveModel.occupied_cells.length :=
  reachable_invariants oneMoveModel
    (Reachable.step freshModel 0 ⟨1, 1⟩ Feedback.VALID oneMoveModel
      (Reachable.init 3 [0, 1] 2 freshModel (by decide)) (by decide))

/-! ## Occupied-cell rejection -/

/-- Counterexample for C3: in the reachable state where player 1 has placed
symbol 0 at (1, 1) and it is player 2's turn, placing symbol 0 (not player
2's symbol) on the occupied cell (1, 1) returns INVALID_SYMBOL, not
OCCUPIED — the symbol check precedes the occupancy check. -/
theorem occupied_rejection_counterexample :
    Reachable oneMoveModel
    ∧ oneMoveModel.field.get_symbol_at ⟨1, 1⟩ = some 0
    ∧ oneMoveModel.place_symbol 0 ⟨1, 1⟩ = .ok (Feedback.INVALID_SYMBOL, oneMoveModel) :=
  ⟨Reachable.step freshModel 0 ⟨1, 1⟩ Feedback.VALID oneMoveModel
      (Reachable.init 3 [0, 1] 2 freshModel (by decide)) (by decide),
   by decide, by decide⟩

/-- C3 (amended): for every reachable state in which the game is not over
and the symbol passed is the current player's, placing on an already-occupied
cell returns OCCUPIED, regardless of which symbol occupies the cell or which
player placed it. -/
theorem occupied_rejection (m : GridGameModel) (s : Symbol) (c : Cell)
    (cs : List Symbol)
    (hr : Reachable m)
    (hover : m.is_game_over = .ok false)
    (hch : m.get_symbol_choices m.current_player = .ok cs)
    (hs : s ∈ cs)
    (hocc : (m.field.get_symbol_at c).isSome = true) :
    m.place_symbol s c = .ok (Feedback.OCCUPIED, m) := by
  have hInv := reachable_inv m hr
  have hb : m.field.is_within_bounds c = true := by
    unfold Field.get_symbol_at at hocc
    cases hfind : m.field.cells.find? (fun p => decide (p.1 = c)) with
    | none =>
      rw [hfind] at hocc
      simp at hocc
    | some p =>
      have hmem := List.mem_of_find?_eq_some hfind
      have hpc : p.1 = c := by
        have hp := List.find?_some hfind
        simpa using hp
      have hbp := hInv.2.2.2.2.2 p hmem
      rw [hpc] at hbp
      exact hbp
  exact place_symbol_of_occupied m s c cs hover hch hs hb hocc

/-- Witness for C3 (amended): in the reachable one-move state it is player
2's turn; placing player 2's symbol 1 on the occupied cell (1, 1) returns
OCCUPIED even though player 1's symbol 0 occupies it. -/
theorem occupied_rejection_witness :
    oneMoveModel.place_symbol 1 ⟨1, 1⟩ = .ok (Feedback.OCCUPIED, oneMoveModel) :=
  occupied_rejection oneMoveModel 1 ⟨1, 1⟩ [1]
    (Reachable.step freshModel 0 ⟨1, 1⟩ Feedback.VALID oneMoveModel
      (Reachable.init 3 [0, 1] 2 freshModel (by decide)) (by decide))
    (by decide) (by decide) (by decide) (by decide)

/-! ## The line win validator -/

namespace TicTacToeWinValidator

theorem valid_coords_length (f : Field) : f.valid_coords.length = f.grid_size := by
  unfold Field.valid_coords
  rw [List.length_map, List.length_range]

theorem valid_coords_get? (f : Field) (i : Nat) (hi : i < f.grid_size) :
    f.valid_coords.get? i = some ((i : Int) + 1) := by
  unfold Field.valid_coords
  rw [List.get?_map, List.get?_range hi]
  rfl

theorem get_winner_over_skip (f : Field) (hist : GridGameMoveHistory)
    (g : List Cell) (rest : List (List Cell))
    (hne : g ≠ []) (hnb : winning_basis f g = none) :
    get_winner_over f hist (g :: rest) = get_winner_over f hist rest := by
  cases g with
  | nil => exact absurd rfl hne
  | cons c0 gtl =>
    unfold winning_basis at hnb
    simp only [List.head?_cons] at hnb
    simp only [get_winner_over, List.head?_cons]
    split
    · rfl
    · rename_i b hsym
      simp only [hsym] at hnb
      rcases Bool.eq_false_or_eq_true (f.are_all_equal_to_basis b (c0 :: gtl)) with hall | hall
      · rw [if_pos (by simp [hall])] at hnb
        cases hnb
      · rw [if_neg (by simp [hall])]

theorem get_winner_over_append_skip (f : Field) (hist : GridGameMoveHistory)
    (l1 rest : List (List Cell))
    (h : ∀ g ∈ l1, winning_basis f g = none ∧ g ≠ []) :
    get_winner_over f hist (l1 ++ rest) = get_winner_over f hist rest := by
  induction l1 with
  | nil => rfl
  | cons g t ih =>
    have hg := h g (List.mem_cons_self g t)
    rw [List.cons_append, get_winner_over_skip f hist g (t ++ rest) hg.2 hg.1]
    exact ih (fun g' hg' => h g' (List.mem_cons_of_mem g hg'))

theorem get_winner_over_cons_win (f : Field) (hist : GridGameMoveHistory)
    (g : List Cell) (rest : List (List Cell)) (b : Symbol)
    (hwb : winning_basis f g = some b) :
    get_winner_over f hist (g :: rest) =
      match find_winning_player hist g b with
      | some p => .ok (some p)
      | none => .error assertErrorMsg := by
  cases g with
  | nil =>
    unfold winning_basis at hwb
    simp at hwb
  | cons c0 gtl =>
    unfold winning_basis at hwb
    simp only [List.head?_cons] at hwb
    simp only [get_winner_over, List.head?_cons]
    split
    · rename_i hsym
      simp only [hsym] at hwb
      exact Option.noConfusion hwb
    · rename_i b' hsym
      simp only [hsym] at hwb
      rcases Bool.eq_false_or_eq_true (f.are_all_equal_to_basis b' (c0 :: gtl)) with hall | hall
      · rw [if_pos (by simp [hall])] at hwb
        simp only [Option.some.injEq] at hwb
        subst hwb
        rw [if_pos (by simp [hall])]
      · rw [if_neg (by simp [hall])] at hwb
        cases hwb

theorem get_winner_over_no_win (f : Field) (hist : GridGameMoveHistory)
    (gs : List (List Cell))
    (h : ∀ g ∈ gs, winning_basis f g = none ∧ g ≠ []) :
    get_winner_over f hist gs = .ok none := by
  have happ := get_winner_over_append_skip f hist gs [] h
  rw [List.append_nil] at happ
  rw [happ]
  rfl

theorem mem_get_groups_length (f : Field) (g : List Cell)
    (h : g ∈ get_groups f) : g.length = f.grid_size := by
  unfold get_groups at h
  rw [List.mem_append, List.mem_append] at h
  rcases h with (h | h) | h
  · rw [List.mem_map] at h
    obtain ⟨r, hr, rfl⟩ := h
    simp [valid_coords_length]
  · rw [List.mem_map] at h
    obtain ⟨c, hc, rfl⟩ := h
    simp [valid_coords_length]
  · rw [List.mem_cons, List.mem_singleton] at h
    rcases h with h | h
    · rw [h]
      simp [valid_coords_length]
    · rw [h]
      simp [valid_coords_length]

theorem get_winner_over_ne_index_error (f : Field) (hist : GridGameMoveHistory)
    (gs : List (List Cell)) (h : ∀ g ∈ gs, g ≠ []) :
    get_winner_over f hist gs ≠ .error indexErrorMsg := by
  induction gs with
  | nil =>
    intro hc
    cases hc
  | cons g t ih =>
    cases g with
    | nil => exact absurd rfl (h [] (List.mem_cons_self [] t))
    | cons c0 gtl =>
      have ht := ih (fun g' hg' => h g' (List.mem_cons_of_mem (c0 :: gtl) hg'))
      simp only [get_winner_over, List.head?_cons]
      split
      · exact ht
      · rename_i b hsym
        rcases Bool.eq_false_or_eq_true (f.are_all_equal_to_basis b (c0 :: gtl)) with hall | hall
        · rw [if_pos (by simp [hall])]
          split
          · intro hc
            cases hc
          · intro hc
            simp only [Except.error.injEq] at hc
            exact absurd hc (by decide)
        · rw [if_neg (by simp [hall])]
          exact ht

end TicTacToeWinValidator

/-- C5: the line validator enumerates exactly 2·grid_size + 2 groups, each
of length grid_size, in the order all rows, then all columns, then the
backslash diagonal (k, k), then the forward-slash diagonal
(k, grid_size - k + 1); `get_winner` resolves the first group in that order
fully occupied by one symbol (deterministic first-found tie-break) and
returns no winner when no group qualifies. -/
theorem line_validator_enumeration (f : Field) (hist : GridGameMoveHistory)
    (hgs : 1 ≤ f.grid_size) :
    (TicTacToeWinValidator.get_groups f).length = 2 * f.grid_size + 2
    ∧ (∀ g ∈ TicTacToeWinValidator.get_groups f, g.length = f.grid_size)
    ∧ (∀ i : Nat, i < f.grid_size →
        (TicTacToeWinValidator.get_groups f).get? i =
          some (f.valid_coords.map (fun k => Cell.mk ((i : Int) + 1) k))
        ∧ (TicTacToeWinValidator.get_groups f).get? (f.grid_size + i) =
          some (f.valid_coords.map (fun k => Cell.mk k ((i : Int) + 1))))
    ∧ (TicTacToeWinValidator.get_groups f).get? (2 * f.grid_size) =
        some (f.valid_coords.map (fun k => Cell.mk k k))
    ∧ (TicTacToeWinValidator.get_groups f).get? (2 * f.grid_size + 1) =
        some (f.valid_coords.map (fun k => Cell.mk k ((f.grid_size : Int) - k + 1)))
    ∧ (∀ l1 g l2 b, TicTacToeWinValidator.get_groups f = l1 ++ g :: l2 →
        (∀ g' ∈ l1, winning_basis f g' = none) → winning_basis f g = some b →
        TicTacToeWinValidator.get_winner f hist =
          match TicTacToeWinValidator.find_winning_player hist g b with
          | some p => .ok (some p)
          | none => .error TicTacToeWinValidator.assertErrorMsg)
    ∧ ((∀ g ∈ TicTacToeWinValidator.get_groups f, winning_basis f g = none) →
        TicTacToeWinValidator.get_winner f hist = .ok none) := by
  have hlen : ∀ g ∈ TicTacToeWinValidator.get_groups f, g.length = f.grid_size :=
    fun g hg => TicTacToeWinValidator.mem_get_groups_length f g hg
  have hne : ∀ g ∈ TicTacToeWinValidator.get_groups f, g ≠ [] := by
    intro g hg
    have := hlen g hg
    intro hnil
    rw [hnil] at this
    simp at this
    omega
  have hrowslen : (f.valid_coords.map
      (fun row => f.valid_coords.map (fun k => Cell.mk row k))).length = f.grid_size := by
    simp [TicTacToeWinValidator.valid_coords_length]
  have hcolslen : (f.valid_coords.map
      (fun col => f.valid_coords.map (fun k => Cell.mk k col))).length = f.grid_size := by
    simp [TicTacToeWinValidator.valid_coords_length]
  refine ⟨?_, hlen, ?_, ?_, ?_, ?_, ?_⟩
  · unfold TicTacToeWinValidator.get_groups
    rw [List.length_append, List.length_append, hrowslen, hcolslen]
    simp
    omega
  · intro i hi
    constructor
    · unfold TicTacToeWinValidator.get_groups
      rw [List.get?_append (by rw [List.length_append, hrowslen, hcolslen]; omega)]
      rw [List.get?_append (by rw [hrowslen]; omega)]
      rw [List.get?_map, TicTacToeWinValidator.valid_coords_get? f i hi]
      rfl
    · unfold TicTacToeWinValidator.get_groups
      rw [List.get?_append (by rw [List.length_append, hrowslen, hcolslen]; omega)]
      rw [List.get?_append_right (by rw [hrowslen]; omega)]
      rw [hrowslen, show f.grid_size + i - f.grid_size = i from by omega]
      rw [List.get?_map, TicTacToeWinValidator.valid_coords_get? f i hi]
      rfl
  · unfold TicTacToeWinValidator.get_groups
    rw [List.get?_append_right (by rw [List.length_append, hrowslen, hcolslen]; omega)]
    rw [List.length_append, hrowslen, hcolslen,
      show 2 * f.grid_size - (f.grid_size + f.grid_size) = 0 from by omega]
    rfl
  · unfold TicTacToeWinValidator.get_groups
    rw [List.get?_append_right (by rw [List.length_append, hrowslen, hcolslen]; omega)]
    rw [List.length_append, hrowslen, hcolslen,
      show 2 * f.grid_size + 1 - (f.grid_size + f.grid_size) = 1 from by omega]
    rfl
  · intro l1 g l2 b hdec hnb hwb
    unfold TicTacToeWinValidator.get_winner
    rw [hdec]
    rw [TicTacToeWinValidator.get_winner_over_append_skip f hist l1 (g :: l2)
      (fun g' hg' => ⟨hnb g' hg', hne g' (by rw [hdec]; exact List.mem_append_left _ hg')⟩)]
    exact TicTacToeWinValidator.get_winner_over_cons_win f hist g l2 b hwb
  · intro hall
    unfold TicTacToeWinValidator.get_winner
    exact TicTacToeWinValidator.get_winner_over_no_win f hist _
      (fun g hg => ⟨hall g hg, hne g hg⟩)

/-- Witness for C5: the finished 3 by 3 game has 2·3 + 2 = 8 candidate
groups, and the winner resolved through the first-found rule (the fully
occupied top row is the first group) is player 1. -/
theorem line_validator_enumeration_witness :
    (TicTacToeWinValidator.get_groups wonModel.field).length = 8
    ∧ TicTacToeWinValidator.get_winner wonModel.field wonModel.move_history =
        .ok (some 1) := by
  have h := line_validator_enumeration wonModel.field wonModel.move_history (by decide)
  constructor
  · rw [h.1]
    decide
  · have h6 := h.2.2.2.2.2.1 []
      [Cell.mk 1 1, Cell.mk 1 2, Cell.mk 1 3]
      (TicTacToeWinValidator.get_groups wonModel.field).tail 0
      (by decide) (by intro g' hg'; cases hg') (by decide)
    rw [h6]
    decide

/-- C6: when the first fully-occupied group is found, `get_winner` resolves
the owner by scanning the move history in reverse chronological order for
the first move whose cell lies in the winning group with the winning
symbol, and fails with the assertion when no move matches. -/
theorem winner_attribution (f : Field) (hist : GridGameMoveHistory)
    (l1 : List (List Cell)) (g : List Cell) (l2 : List (List Cell)) (b : Symbol)
    (hgs : 1 ≤ f.grid_size)
    (hdec : TicTacToeWinValidator.get_groups f = l1 ++ g :: l2)
    (hnb : ∀ g' ∈ l1, winning_basis f g' = none)
    (hwb : winning_basis f g = some b) :
    TicTacToeWinValidator.get_winner f hist =
      match (hist.reverse.find?
          (fun mv => decide (mv.cell ∈ g) && decide (mv.symbol = b))).map
          (fun mv => mv.player) with
      | some p => .ok (some p)
      | none => .error TicTacToeWinValidator.assertErrorMsg := by
  have hne : ∀ g' ∈ l1, g' ≠ [] := by
    intro g' hg'
    have hmem : g' ∈ TicTacToeWinValidator.get_groups f := by
      rw [hdec]
      exact List.mem_append_left _ hg'
    have hl := TicTacToeWinValidator.mem_get_groups_length f g' hmem
    intro hnil
    rw [hnil] at hl
    simp at hl
    omega
  unfold TicTacToeWinValidator.get_winner
  rw [hdec]
  rw [TicTacToeWinValidator.get_winner_over_append_skip f hist l1 (g :: l2)
    (fun g' hg' => ⟨hnb g' hg', hne g' hg'⟩)]
  exact TicTacToeWinValidator.get_winner_over_cons_win f hist g l2 b hwb

/-- Witness for C6: on the finished game the winning top row is attributed
to player 1 (the most recent matching move is player 1's symbol 0 at
(1, 3)); with an inconsistent empty history the same board makes
`get_winner` fail with the assertion error. -/
theorem winner_attribution_witness :
    TicTacToeWinValidator.get_winner wonModel.field wonModel.move_history = .ok (some 1)
    ∧ TicTacToeWinValidator.get_winner wonModel.field [] =
        .error TicTacToeWinValidator.assertErrorMsg := by
  constructor
  · have h := winner_attribution wonModel.field wonModel.move_history []
      [Cell.mk 1 1, Cell.mk 1 2, Cell.mk 1 3]
      (TicTacToeWinValidator.get_groups wonModel.field).tail 0
      (by decide) (by decide) (by intro g' hg'; cases hg') (by decide)
    rw [h]
    decide
  · have h := winner_attribution wonModel.field [] []
      [Cell.mk 1 1, Cell.mk 1 2, Cell.mk 1 3]
      (TicTacToeWinValidator.get_groups wonModel.field).tail 0
      (by decide) (by decide) (by intro g' hg'; cases hg') (by decide)
    rw [h]
    decide

/-- C10: for grid_size ≥ 1 every enumerated group is non-empty, so the
`group[0]` read in `get_winner` is in range and no IndexError is possible;
for grid_size = 0 the rows and columns vanish, the two diagonal groups are
empty, `get_winner` fails with an IndexError — and the constructor accepts
grid_size 0 whenever the player checks pass, so such a model is
constructible. -/
theorem get_winner_totality :
    (∀ f : Field, 1 ≤ f.grid_size → ∀ g ∈ TicTacToeWinValidator.get_groups f, g ≠ [])
    ∧ (∀ (f : Field) (hist : GridGameMoveHistory), 1 ≤ f.grid_size →
        TicTacToeWinValidator.get_winner f hist ≠
          .error TicTacToeWinValidator.indexErrorMsg)
    ∧ (∀ f : Field, f.grid_size = 0 → TicTacToeWinValidator.get_groups f = [[], []])
    ∧ (∀ (f : Field) (hist : GridGameMoveHistory), f.grid_size = 0 →
        TicTacToeWinValidator.get_winner f hist =
          .error TicTacToeWinValidator.indexErrorMsg)
    ∧ (∀ (syms : List Symbol) (n : Int), 2 ≤ n → syms.Nodup → (syms.length : Int) = n →
        ∃ m, GridGameModel.init 0 syms n = .ok m ∧ m.grid_size = 0) := by
  have hne : ∀ f : Field, 1 ≤ f.grid_size →
      ∀ g ∈ TicTacToeWinValidator.get_groups f, g ≠ [] := by
    intro f hgs g hg hnil
    have hl := TicTacToeWinValidator.mem_get_groups_length f g hg
    rw [hnil] at hl
    simp at hl
    omega
  refine ⟨hne, ?_, ?_, ?_, ?_⟩
  · intro f hist hgs
    exact TicTacToeWinValidator.get_winner_over_ne_index_error f hist _ (hne f hgs)
  · intro f h0
    unfold TicTacToeWinValidator.get_groups Field.valid_coords
    rw [h0]
    rfl
  · intro f hist h0
    have hg : TicTacToeWinValidator.get_groups f = [[], []] := by
      unfold TicTacToeWinValidator.get_groups Field.valid_coords
      rw [h0]
      rfl
    unfold TicTacToeWinValidator.get_winner
    rw [hg]
    rfl
  · intro syms n h1 h2 h3
    refine ⟨{ field := Field.init 0, move_history := [], player_symbols := syms,
              player_count := n, current_player := 1 }, ?_, rfl⟩
    unfold GridGameModel.init
    rw [if_neg (by omega), if_neg (by simp [List.dedup_eq_self.mpr h2]),
      if_neg (by simp [h3])]

/-- Witness for C10: on the 0 by 0 field `get_winner` raises the
IndexError, and a 0-size model with two distinct player symbols is
successfully constructed. -/
theorem get_winner_totality_witness :
    TicTacToeWinValidator.get_winner (Field.init 0) [] =
      .error TicTacToeWinValidator.indexErrorMsg
    ∧ (∃ m, GridGameModel.init 0 [0, 1] 2 = .ok m ∧ m.grid_size = 0) :=
  ⟨get_winner_totality.2.2.2.1 (Field.init 0) [] rfl,
   get_winner_totality.2.2.2.2 [0, 1] 2 (by omega) (by decide) (by decide)⟩

end GridGame
